import Mathlib

set_option autoImplicit false

/-!
Verification of the `epydemic` SEIR disease model (`seir_model.py`) and the
`Monitor` observation process (`monitor.py`) against their specification.

The two source files are shallowly embedded.  The compartmented-model and
discrete-event-scheduler collaborators are external to the repository, so
their state (node compartments, edge occupancy, the posted-event list, the
tracked-locus snapshot) is passed explicitly and the operations the sources
invoke on them (`changeCompartment`, `markOccupied`, `addCompartment`,
`postRepeatingEvent`, locus iteration) are embedded as state transformers.
Python floats are embedded as rationals; a Python `KeyError` is embedded as
`none` in an `Option` result.
-/

namespace Epydemic

/-- Network nodes are opaque identities. -/
abbrev Node := ℕ

/-- Edges are ordered pairs of node identities, as delivered by edge loci. -/
abbrev Edge := Node × Node

/-- Simulated time (a Python float, embedded as a rational). -/
abbrev Time := ℚ

/-- A parameter mapping, as passed to `build(params)`. -/
abbrev Params := List (String × ℚ)

/-- Dictionary lookup `params[k]`; a missing key is a `KeyError` (`none`). -/
def getParam : Params → String → Option ℚ
  | [], _ => none
  | (k2, v) :: rest, k => if k2 = k then some v else getParam rest k

namespace SEIR

/-- Compartment constant `SEIR.SUSCEPTIBLE` from the source. -/
def SUSCEPTIBLE : String := "epydemic.SEIR.S"

/-- Compartment constant `SEIR.EXPOSED` from the source. -/
def EXPOSED : String := "epydemic.SEIR.E"

/-- Compartment constant `SEIR.INFECTED` from the source. -/
def INFECTED : String := "epydemic.SEIR.I"

/-- Compartment constant `SEIR.REMOVED` from the source. -/
def REMOVED : String := "epydemic.SEIR.R"

/-- Locus name `SEIR.SE` from the source. -/
def SE : String := "epydemic.SEIR.SE"

/-- Locus name `SEIR.SI` from the source. -/
def SI : String := "epydemic.SEIR.SI"

/-- Parameter key `SEIR.P_EXPOSED`. -/
def P_EXPOSED : String := "epydemic.SEIR.pExposed"

/-- Parameter key `SEIR.P_INFECT_ASYMPTOMATIC`. -/
def P_INFECT_ASYMPTOMATIC : String := "epydemic.SEIR.pInfectA"

/-- Parameter key `SEIR.P_INFECT_SYMPTOMATIC`. -/
def P_INFECT_SYMPTOMATIC : String := "epydemic.SEIR.pInfect"

/-- Parameter key `SEIR.P_SYMPTOMS`. -/
def P_SYMPTOMS : String := "epydemic.SEIR.pSymptoms"

/-- Parameter key `SEIR.P_REMOVE`. -/
def P_REMOVE : String := "epydemic.SEIR.pRemove"

/-- The compartmented-model state the SEIR transition handlers mutate: the
node-to-compartment assignment and the edge-occupancy record (the time at
which each edge transmitted infection, if it did). -/
structure ModelState where
  comp : Node → String
  occupied : Edge → Option Time

/-- Collaborator operation `changeCompartment(n, c)`: reassign the compartment
label of node `n` to `c`. -/
def changeCompartment (s : ModelState) (n : Node) (c : String) : ModelState :=
  { s with comp := fun m => if m = n then c else s.comp m }

/-- Collaborator operation `markOccupied(e, t)`: record that edge `e`
transmitted infection at time `t`. -/
def markOccupied (s : ModelState) (e : Edge) (t : Time) : ModelState :=
  { s with occupied := fun f => if f = e then some t else s.occupied f }

/-- `SEIR.infect(t, e)`: destructure `(n, _) = e`, move the FIRST endpoint `n`
of the edge to `EXPOSED`, and mark the edge occupied at time `t`. -/
def infect (t : Time) (e : Edge) (s : ModelState) : ModelState :=
  markOccupied (changeCompartment s e.1 EXPOSED) e t

/-- `SEIR.infectAsymptomatic(t, e)`: the body is exactly `self.infect(t, e)`. -/
def infectAsymptomatic (t : Time) (e : Edge) (s : ModelState) : ModelState :=
  infect t e s

/-- `SEIR.symptoms(t, n)`: move node `n` to `INFECTED` (`t` unused). -/
def symptoms (_t : Time) (n : Node) (s : ModelState) : ModelState :=
  changeCompartment s n INFECTED

/-- `SEIR.remove(t, n)`: move node `n` to `REMOVED` (`t` unused). -/
def remove (_t : Time) (n : Node) (s : ModelState) : ModelState :=
  changeCompartment s n REMOVED

/-- Modelled from the spec: membership of an edge in the SE locus maintained by
the external compartmented-process collaborator — "edges with one endpoint
SUSCEPTIBLE and the other EXPOSED". -/
def inSE (s : ModelState) (e : Edge) : Bool :=
  (s.comp e.1 == SUSCEPTIBLE && s.comp e.2 == EXPOSED) ||
    (s.comp e.1 == EXPOSED && s.comp e.2 == SUSCEPTIBLE)

/-- Modelled from the spec: membership of an edge in the SI locus maintained by
the external compartmented-process collaborator — "edges with one endpoint
SUSCEPTIBLE and the other INFECTED". -/
def inSI (s : ModelState) (e : Edge) : Bool :=
  (s.comp e.1 == SUSCEPTIBLE && s.comp e.2 == INFECTED) ||
    (s.comp e.1 == INFECTED && s.comp e.2 == SUSCEPTIBLE)

/-- The transition handlers `SEIR.build` can bind to a per-element event. -/
inductive Handler where
  | infectAsymptomatic
  | infect
  | symptoms
  | remove
deriving DecidableEq

/-- Everything `SEIR.build` registers with the compartmented-model
collaborator, in call order: `addCompartment` calls as (name, initial
occupancy probability), `trackEdgesBetweenCompartments` calls as
(left compartment, right compartment, locus name),
`trackNodesInCompartment` calls as the compartment name, and
`addEventPerElement` calls as (locus name, probability, handler). -/
structure BuildState where
  compartments : List (String × ℚ)
  trackedEdges : List (String × String × String)
  trackedNodes : List String
  perElementEvents : List (String × ℚ × Handler)
deriving DecidableEq

/-- `SEIR.build(params)`: read the five parameters (a missing key raises,
embedded as `none`) and register the compartments, loci and per-element
events exactly as the source does, in source order. -/
def build (params : Params) : Option BuildState := do
  let pExposed ← getParam params P_EXPOSED
  let pInfectA ← getParam params P_INFECT_ASYMPTOMATIC
  let pInfect ← getParam params P_INFECT_SYMPTOMATIC
  let pSymptoms ← getParam params P_SYMPTOMS
  let pRemove ← getParam params P_REMOVE
  some
    { compartments :=
        [(SUSCEPTIBLE, 1 - pExposed), (EXPOSED, pExposed), (INFECTED, 0), (REMOVED, 0)]
      trackedEdges := [(SUSCEPTIBLE, EXPOSED, SE), (SUSCEPTIBLE, INFECTED, SI)]
      trackedNodes := [EXPOSED, INFECTED]
      perElementEvents :=
        [(SE, pInfectA, Handler.infectAsymptomatic), (SI, pInfect, Handler.infect),
          (EXPOSED, pSymptoms, Handler.symptoms), (INFECTED, pRemove, Handler.remove)] }

end SEIR

namespace Monitor

/-- Parameter key `Monitor.DELTA`. -/
def DELTA : String := "time_delta"

/-- Result key `Monitor.OBSERVATIONS`: the times of the observations. -/
def OBSERVATIONS : String := "loci_observations"

/-- Result key `Monitor.TIMESERIES`: the reserved time-series key. -/
def TIMESERIES : String := "loci_timeseries"

/-- The time-series store `self._timeSeries` once created: a dict mapping the
observations key and each locus name to its ordered sequence of recorded
values (observation times, or locus sizes). -/
abbrev Store := List (String × List ℚ)

/-- The Monitor's own state: the lazily created store, `None` after reset. -/
structure State where
  timeSeries : Option Store
deriving DecidableEq

/-- `Monitor.reset()`: set `self._timeSeries = None`. -/
def reset : State := ⟨none⟩

/-- The handlers the Monitor binds to scheduled events. -/
inductive MHandler where
  | observe
deriving DecidableEq

/-- A repeating event posted through the scheduler collaborator's
`postRepeatingEvent(start, interval, element, handler)`.  Modelled from the
spec for the missing scheduler: such an event recurs every `interval` time
units from `start` and carries no expiry time of its own (`expiry = none`,
"this action never expires on its own"). -/
structure RepeatingEvent where
  start : Time
  interval : Time
  element : Option Node
  handler : MHandler
  expiry : Option Time
deriving DecidableEq

/-- `Monitor.build(params)`: read `time_delta` (a missing key raises, embedded
as `none`) and post a single repeating observation event at time 0.0 with
interval `delta`, element `None` and handler `observe`.  The source performs
no validation of `delta`. -/
def build (params : Params) : Option (List RepeatingEvent) := do
  let delta ← getParam params DELTA
  some [⟨0, delta, none, MHandler.observe, none⟩]

/-- Dict lookup `store[k]` on the time-series store. -/
def storeGet : Store → String → Option (List ℚ)
  | [], _ => none
  | (k2, vs) :: rest, k => if k2 = k then some vs else storeGet rest k

/-- `store[k].append(v)`: append `v` to the sequence at key `k`; a missing key
is a `KeyError`, embedded as `none`. -/
def storeAppend : Store → String → ℚ → Option Store
  | [], _, _ => none
  | (k2, vs) :: rest, k, v =>
    if k2 = k then some ((k2, vs ++ [v]) :: rest)
    else (storeAppend rest k v).map (fun r => (k2, vs) :: r)

/-- `Monitor.observe(t, e)`: `loci` is the snapshot of the process's tracked
loci at this invocation, each name paired with its current size (the external
iteration `for l in self` and the size query `len(self[l])`; the element
argument `e` is ignored by the source and omitted).  On the first invocation
the store is created with one empty sequence keyed by `OBSERVATIONS` and one
per locus; then `t` is appended to the observation-times sequence and each
locus's size to that locus's sequence. -/
def observe (t : Time) (loci : List (String × ℕ)) (s : State) : Option State := do
  let ts :=
    match s.timeSeries with
    | none => (OBSERVATIONS, ([] : List ℚ)) :: loci.map (fun p => (p.1, ([] : List ℚ)))
    | some ts0 => ts0
  let ts1 ← storeAppend ts OBSERVATIONS t
  let ts2 ← loci.foldlM (fun acc p => storeAppend acc p.1 (p.2 : ℚ)) ts1
  some ⟨some ts2⟩

/-- A sequence of `observe` invocations, each given the observation time and
the tracked-locus snapshot current at that invocation. -/
def observeRun (steps : List (Time × List (String × ℕ))) (s : State) : Option State :=
  match steps with
  | [] => some s
  | (t, loci) :: rest => (observe t loci s).bind (observeRun rest)

/-- A value in the run's results mapping: either the Monitor's time-series
entry (the store, or `None` before the first observation), or an opaque entry
contributed by the parent process's `results()`. -/
inductive ResultValue where
  | series (ts : Option Store)
  | other (tag : String)
deriving DecidableEq

/-- `Monitor.results()`: take the mapping `rc` produced by the parent
`results()` and execute `rc[TIMESERIES] = self._timeSeries`. -/
def results (parent : String → Option ResultValue) (s : State) :
    String → Option ResultValue :=
  fun k => if k = TIMESERIES then some (ResultValue.series s.timeSeries) else parent k

end Monitor

end Epydemic

/-! ## Theorems -/

namespace Epydemic

namespace SEIR

/-- A model state used to exercise `infect`: node 0 is EXPOSED, every other
node is SUSCEPTIBLE, and no edge is occupied. -/
def exposedFirstState : ModelState :=
  ⟨fun n => if n = 0 then EXPOSED else SUSCEPTIBLE, fun _ => none⟩

/-- C1: the claim as stated is false.  Take the edge e = (0, 1) in state
`exposedFirstState`: e is in locus SE, its first endpoint n = 0 is the
non-susceptible endpoint (EXPOSED), as the claim's premise requires.  But
`infect` moves the FIRST endpoint, so the susceptible endpoint 1 stays
SUSCEPTIBLE instead of moving to EXPOSED. -/
theorem infect_counterexample :
    (inSE exposedFirstState (0, 1) = true ∨ inSI exposedFirstState (0, 1) = true) ∧
    exposedFirstState.comp 0 ≠ SUSCEPTIBLE ∧
    exposedFirstState.comp 1 = SUSCEPTIBLE ∧
    (infect 1 (0, 1) exposedFirstState).comp 1 = SUSCEPTIBLE ∧
    SUSCEPTIBLE ≠ EXPOSED := by
  refine ⟨Or.inl rfl, ?_, rfl, rfl, ?_⟩ <;> decide

/-- C1 (amended): for every edge e = (n, m) delivered from locus SE or SI in
which n, the FIRST endpoint, is the SUSCEPTIBLE one (the collaborator delivers
such edges susceptible-endpoint first), `infect`(t, e) moves n to EXPOSED,
marks e occupied at time t, and moves no other node. -/
theorem infect_moves_first_endpoint (t : Time) (e : Edge) (s : ModelState)
    (hdeliv : inSE s e = true ∨ inSI s e = true)
    (hsus : s.comp e.1 = SUSCEPTIBLE) :
    (infect t e s).comp e.1 = EXPOSED ∧
    (infect t e s).occupied e = some t ∧
    (∀ m : Node, m ≠ e.1 → (infect t e s).comp m = s.comp m) := by
  refine ⟨?_, ?_, ?_⟩
  · simp [infect, markOccupied, changeCompartment]
  · simp [infect, markOccupied, changeCompartment]
  · intro m hm
    simp [infect, markOccupied, changeCompartment, hm]

/-- A model state used to witness the amended C1: node 1 is EXPOSED, every
other node (in particular node 0) is SUSCEPTIBLE, and no edge is occupied. -/
def susceptibleFirstState : ModelState :=
  ⟨fun n => if n = 1 then EXPOSED else SUSCEPTIBLE, fun _ => none⟩

/-- Witness for the amended C1 at t = 2, e = (0, 1), state
`susceptibleFirstState`. -/
theorem infect_moves_first_endpoint_witness :
    (infect 2 (0, 1) susceptibleFirstState).comp 0 = EXPOSED ∧
    (infect 2 (0, 1) susceptibleFirstState).occupied (0, 1) = some 2 ∧
    (∀ m : Node, m ≠ 0 → (infect 2 (0, 1) susceptibleFirstState).comp m =
      susceptibleFirstState.comp m) :=
  infect_moves_first_endpoint 2 (0, 1) susceptibleFirstState (Or.inl (by decide)) (by decide)

/-- C4: `infectAsymptomatic` has exactly the same effect on the model state as
`infect`, at every time, edge and state. -/
theorem infectAsymptomatic_same_effect (t : Time) (e : Edge) (s : ModelState) :
    infectAsymptomatic t e s = infect t e s := rfl

/-- C7: `symptoms`(t, n) moves a node n that is EXPOSED to INFECTED and
`remove`(u, n) moves a node n that is INFECTED to REMOVED; neither handler
touches any other node's compartment or the edge-occupancy record. -/
theorem symptoms_and_remove_transitions (t u : Time) (n : Node) (s s2 : ModelState)
    (hE : s.comp n = EXPOSED) (hI : s2.comp n = INFECTED) :
    ((symptoms t n s).comp n = INFECTED ∧
      (∀ m : Node, m ≠ n → (symptoms t n s).comp m = s.comp m) ∧
      (symptoms t n s).occupied = s.occupied) ∧
    ((remove u n s2).comp n = REMOVED ∧
      (∀ m : Node, m ≠ n → (remove u n s2).comp m = s2.comp m) ∧
      (remove u n s2).occupied = s2.occupied) := by
  refine ⟨⟨?_, ?_, rfl⟩, ?_, ?_, rfl⟩
  · simp [symptoms, changeCompartment]
  · intro m hm
    simp [symptoms, changeCompartment, hm]
  · simp [SEIR.remove, changeCompartment]
  · intro m hm
    simp [SEIR.remove, changeCompartment, hm]

/-- A model state used to witness C7: node 3 is EXPOSED, the rest SUSCEPTIBLE. -/
def exposedNodeState : ModelState :=
  ⟨fun n => if n = 3 then EXPOSED else SUSCEPTIBLE, fun _ => none⟩

/-- A model state used to witness C7: node 3 is INFECTED, the rest SUSCEPTIBLE. -/
def infectedNodeState : ModelState :=
  ⟨fun n => if n = 3 then INFECTED else SUSCEPTIBLE, fun _ => none⟩

/-- Witness for C7 at n = 3, t = 1, u = 2, states `exposedNodeState` and
`infectedNodeState`. -/
theorem symptoms_and_remove_transitions_witness :
    ((symptoms 1 3 exposedNodeState).comp 3 = INFECTED ∧
      (∀ m : Node, m ≠ 3 → (symptoms 1 3 exposedNodeState).comp m =
        exposedNodeState.comp m) ∧
      (symptoms 1 3 exposedNodeState).occupied = exposedNodeState.occupied) ∧
    ((remove 2 3 infectedNodeState).comp 3 = REMOVED ∧
      (∀ m : Node, m ≠ 3 → (remove 2 3 infectedNodeState).comp m =
        infectedNodeState.comp m) ∧
      (remove 2 3 infectedNodeState).occupied = infectedNodeState.occupied) :=
  symptoms_and_remove_transitions 1 2 3 exposedNodeState infectedNodeState
    (by decide) (by decide)

end SEIR

end Epydemic

namespace Epydemic

namespace Monitor

/-- C2: the claim is false.  With time_delta = -1 (which is ≤ 0),
`Monitor.build` does not raise a configuration error: it succeeds and
schedules the repeating observation event with the malformed interval. -/
theorem build_no_validation_counterexample :
    (-1 : ℚ) ≤ 0 ∧
    build [(DELTA, -1)] = some [⟨0, -1, none, MHandler.observe, none⟩] ∧
    build [(DELTA, -1)] ≠ none := by
  refine ⟨by norm_num, rfl, by simp [build, getParam, DELTA]⟩

/-- C2 (amended): `Monitor.build` performs no validation of time_delta: for
every parameter mapping binding time_delta to a value delta ≤ 0, build
succeeds (no configuration error) and schedules the repeating observation
event with that non-positive interval. -/
theorem build_accepts_nonpositive_delta (params : Params) (delta : ℚ)
    (h : getParam params DELTA = some delta) (hd : delta ≤ 0) :
    build params = some [⟨0, delta, none, MHandler.observe, none⟩] := by
  simp [build, h]

/-- Witness for the amended C2 at params binding time_delta to -1. -/
theorem build_accepts_nonpositive_delta_witness :
    build [(DELTA, -1)] = some [⟨0, -1, none, MHandler.observe, none⟩] :=
  build_accepts_nonpositive_delta [(DELTA, -1)] (-1) (by rfl) (by norm_num)

/-- C8: for every parameter mapping binding time_delta to delta,
`Monitor.build` posts exactly one repeating event, starting at simulated time
0.0, with interval delta, no target element (`None`), handler `observe`, and
no self-expiry time. -/
theorem build_posts_single_repeating_observation (params : Params) (delta : ℚ)
    (h : getParam params DELTA = some delta) :
    ∃ ev : RepeatingEvent,
      build params = some [ev] ∧
      ev.start = 0 ∧ ev.interval = delta ∧ ev.element = none ∧
      ev.handler = MHandler.observe ∧ ev.expiry = none := by
  refine ⟨⟨0, delta, none, MHandler.observe, none⟩, ?_, rfl, rfl, rfl, rfl, rfl⟩
  simp [build, h]

/-- Witness for C8 at params binding time_delta to 1/2. -/
theorem build_posts_single_repeating_observation_witness :
    ∃ ev : RepeatingEvent,
      build [(DELTA, 1/2)] = some [ev] ∧
      ev.start = 0 ∧ ev.interval = 1/2 ∧ ev.element = none ∧
      ev.handler = MHandler.observe ∧ ev.expiry = none :=
  build_posts_single_repeating_observation [(DELTA, 1/2)] (1/2) (by rfl)

/-- C9: `Monitor.results` binds the reserved time-series key to the
accumulated store and leaves every entry contributed by the parent
`results()` unchanged, overwriting no key (the parent, respecting the
reservation, does not bind the time-series key itself). -/
theorem results_extends_parent (parent : String → Option ResultValue) (s : State)
    (hres : parent TIMESERIES = none) :
    results parent s TIMESERIES = some (ResultValue.series s.timeSeries) ∧
    (∀ k, k ≠ TIMESERIES → results parent s k = parent k) ∧
    (∀ k v, parent k = some v → results parent s k = some v) := by
  refine ⟨by simp [results], fun k hk => by simp [results, hk], fun k v hv => ?_⟩
  by_cases hk : k = TIMESERIES
  · rw [hk, hres] at hv
    exact absurd hv (by simp)
  · simp [results, hk, hv]

/-- A parent results mapping used to witness C9: it binds one key of its own
and respects the reservation of the time-series key. -/
def parentResultsExample : String → Option ResultValue :=
  fun k => if k = "epydemic.Process.elapsedTime" then some (ResultValue.other "42") else none

/-- Witness for C9 at `parentResultsExample` and a monitor state holding an
empty store. -/
theorem results_extends_parent_witness :
    results parentResultsExample ⟨some []⟩ TIMESERIES =
      some (ResultValue.series (some [])) ∧
    (∀ k, k ≠ TIMESERIES → results parentResultsExample ⟨some []⟩ k =
      parentResultsExample k) ∧
    (∀ k v, parentResultsExample k = some v →
      results parentResultsExample ⟨some []⟩ k = some v) :=
  results_extends_parent parentResultsExample ⟨some []⟩ (by rfl)

/-- C10: called after `reset` and before any observation, `Monitor.results`
binds the time-series key to `None` — not to an empty store of sequences —
because the store is only created lazily by the first `observe`. -/
theorem results_after_reset_is_none (parent : String → Option ResultValue) :
    results parent reset TIMESERIES = some (ResultValue.series none) ∧
    ResultValue.series none ≠ ResultValue.series (some []) := by
  exact ⟨by simp [results, reset], by simp⟩

end Monitor

end Epydemic

namespace Epydemic

namespace SEIR

/-- C5: for every parameter mapping binding the five SEIR parameters,
`SEIR.build` registers exactly four compartments, with initial occupancy
probabilities SUSCEPTIBLE = 1 - pExposed, EXPOSED = pExposed, INFECTED = 0
and REMOVED = 0, and these probabilities sum to 1. -/
theorem build_compartments (params : Params) (pE pIA pI pS pR : ℚ)
    (h1 : getParam params P_EXPOSED = some pE)
    (h2 : getParam params P_INFECT_ASYMPTOMATIC = some pIA)
    (h3 : getParam params P_INFECT_SYMPTOMATIC = some pI)
    (h4 : getParam params P_SYMPTOMS = some pS)
    (h5 : getParam params P_REMOVE = some pR) :
    ∃ st : BuildState,
      build params = some st ∧
      st.compartments =
        [(SUSCEPTIBLE, 1 - pE), (EXPOSED, pE), (INFECTED, 0), (REMOVED, 0)] ∧
      st.compartments.length = 4 ∧
      (st.compartments.map Prod.snd).sum = 1 := by
  refine ⟨⟨[(SUSCEPTIBLE, 1 - pE), (EXPOSED, pE), (INFECTED, 0), (REMOVED, 0)],
      [(SUSCEPTIBLE, EXPOSED, SE), (SUSCEPTIBLE, INFECTED, SI)],
      [EXPOSED, INFECTED],
      [(SE, pIA, Handler.infectAsymptomatic), (SI, pI, Handler.infect),
        (EXPOSED, pS, Handler.symptoms), (INFECTED, pR, Handler.remove)]⟩,
    by simp [build, h1, h2, h3, h4, h5], rfl, rfl, ?_⟩
  simp

/-- A parameter mapping binding the five SEIR parameters, used as a concrete
witness input. -/
def seirParamsExample : Params :=
  [(P_EXPOSED, 1/4), (P_INFECT_ASYMPTOMATIC, 1/10), (P_INFECT_SYMPTOMATIC, 1/5),
    (P_SYMPTOMS, 1/2), (P_REMOVE, 1/3)]

/-- Witness for C5 at `seirParamsExample`. -/
theorem build_compartments_witness :
    ∃ st : BuildState,
      build seirParamsExample = some st ∧
      st.compartments =
        [(SUSCEPTIBLE, 1 - 1/4), (EXPOSED, 1/4), (INFECTED, 0), (REMOVED, 0)] ∧
      st.compartments.length = 4 ∧
      (st.compartments.map Prod.snd).sum = 1 :=
  build_compartments seirParamsExample (1/4) (1/10) (1/5) (1/2) (1/3)
    (by rfl) (by rfl) (by rfl) (by rfl) (by rfl)

/-- C6: for every parameter mapping binding the five SEIR parameters,
`SEIR.build` registers the edge loci SE (between SUSCEPTIBLE and EXPOSED) and
SI (between SUSCEPTIBLE and INFECTED), the node loci EXPOSED and INFECTED,
and exactly four per-element stochastic event rules: SE with probability
pInfectA to `infectAsymptomatic`, SI with pInfect to `infect`, EXPOSED with
pSymptoms to `symptoms`, and INFECTED with pRemove to `remove`. -/
theorem build_loci_and_events (params : Params) (pE pIA pI pS pR : ℚ)
    (h1 : getParam params P_EXPOSED = some pE)
    (h2 : getParam params P_INFECT_ASYMPTOMATIC = some pIA)
    (h3 : getParam params P_INFECT_SYMPTOMATIC = some pI)
    (h4 : getParam params P_SYMPTOMS = some pS)
    (h5 : getParam params P_REMOVE = some pR) :
    ∃ st : BuildState,
      build params = some st ∧
      st.trackedEdges = [(SUSCEPTIBLE, EXPOSED, SE), (SUSCEPTIBLE, INFECTED, SI)] ∧
      st.trackedNodes = [EXPOSED, INFECTED] ∧
      st.perElementEvents =
        [(SE, pIA, Handler.infectAsymptomatic), (SI, pI, Handler.infect),
          (EXPOSED, pS, Handler.symptoms), (INFECTED, pR, Handler.remove)] ∧
      st.perElementEvents.length = 4 :=
  ⟨⟨[(SUSCEPTIBLE, 1 - pE), (EXPOSED, pE), (INFECTED, 0), (REMOVED, 0)],
      [(SUSCEPTIBLE, EXPOSED, SE), (SUSCEPTIBLE, INFECTED, SI)],
      [EXPOSED, INFECTED],
      [(SE, pIA, Handler.infectAsymptomatic), (SI, pI, Handler.infect),
        (EXPOSED, pS, Handler.symptoms), (INFECTED, pR, Handler.remove)]⟩,
    by simp [build, h1, h2, h3, h4, h5], rfl, rfl, rfl, rfl⟩

/-- Witness for C6 at `seirParamsExample`. -/
theorem build_loci_and_events_witness :
    ∃ st : BuildState,
      build seirParamsExample = some st ∧
      st.trackedEdges = [(SUSCEPTIBLE, EXPOSED, SE), (SUSCEPTIBLE, INFECTED, SI)] ∧
      st.trackedNodes = [EXPOSED, INFECTED] ∧
      st.perElementEvents =
        [(SE, 1/10, Handler.infectAsymptomatic), (SI, 1/5, Handler.infect),
          (EXPOSED, 1/2, Handler.symptoms), (INFECTED, 1/3, Handler.remove)] ∧
      st.perElementEvents.length = 4 :=
  build_loci_and_events seirParamsExample (1/4) (1/10) (1/5) (1/2) (1/3)
    (by rfl) (by rfl) (by rfl) (by rfl) (by rfl)

end SEIR

end Epydemic

namespace Epydemic

namespace Monitor

/-- Specification-side bookkeeping for one observation: append each locus's
recorded size to its column. -/
def colStep (cs : List (List ℚ)) (s : Time × List ℕ) : List (List ℚ) :=
  List.zipWith (fun (c : List ℚ) (sz : ℕ) => c ++ [(sz : ℚ)]) cs s.2

theorem storeAppend_middle (pre : Store) (k : String) (c : List ℚ) (rest : Store)
    (v : ℚ) (h : ∀ q ∈ pre, q.1 ≠ k) :
    storeAppend (pre ++ (k, c) :: rest) k v = some (pre ++ (k, c ++ [v]) :: rest) := by
  induction pre with
  | nil => simp [storeAppend]
  | cons q pre ih =>
    obtain ⟨k2, vs⟩ := q
    have hk : k2 ≠ k := h (k2, vs) (List.mem_cons_self _ _)
    simp [storeAppend, hk, ih (fun q hq => h q (List.mem_cons_of_mem _ hq))]

theorem foldlM_storeAppend (L : List String) (szs : List ℕ) (cols : List (List ℚ))
    (pre : Store) (hnd : L.Nodup) (hpre : ∀ q ∈ pre, q.1 ∉ L)
    (hsz : szs.length = L.length) (hcols : cols.length = L.length) :
    (L.zip szs).foldlM (fun acc p => storeAppend acc p.1 (p.2 : ℚ)) (pre ++ L.zip cols)
      = some (pre ++ L.zip (List.zipWith (fun (c : List ℚ) (sz : ℕ) => c ++ [(sz : ℚ)]) cols szs)) := by
  induction L generalizing szs cols pre with
  | nil =>
    rw [List.length_eq_zero.mp hsz, List.length_eq_zero.mp hcols]
    simp
  | cons l L ih =>
    cases szs with
    | nil => exact absurd hsz (by simp)
    | cons sz szs =>
      cases cols with
      | nil => exact absurd hcols (by simp)
      | cons c cols =>
        have hstep : storeAppend (pre ++ (l, c) :: L.zip cols) l (sz : ℚ)
            = some (pre ++ (l, c ++ [(sz : ℚ)]) :: L.zip cols) :=
          storeAppend_middle pre l c (L.zip cols) (sz : ℚ)
            (fun q hq => fun he => hpre q hq (he ▸ List.mem_cons_self l L))
        simp only [List.zip_cons_cons, List.foldlM_cons, hstep, Option.bind_eq_bind,
          Option.some_bind]
        have hpre2 : ∀ q ∈ pre ++ [(l, c ++ [(sz : ℚ)])], q.1 ∉ L := by
          intro q hq
          rcases List.mem_append.mp hq with hq1 | hq2
          · exact fun hmem => hpre q hq1 (List.mem_cons_of_mem _ hmem)
          · have : q = (l, c ++ [(sz : ℚ)]) := List.mem_singleton.mp hq2
            rw [this]
            exact (List.nodup_cons.mp hnd).1
        have := ih szs cols (pre ++ [(l, c ++ [(sz : ℚ)])]) (List.nodup_cons.mp hnd).2
          hpre2 (by simpa using hsz) (by simpa using hcols)
        rw [List.append_cons pre (l, c ++ [(sz : ℚ)]) (L.zip cols), this,
          ← List.append_cons]
        simp

theorem observe_step (t : Time) (L : List String) (szs : List ℕ) (times : List ℚ)
    (cols : List (List ℚ)) (hnd : L.Nodup) (hobs : OBSERVATIONS ∉ L)
    (hsz : szs.length = L.length) (hcols : cols.length = L.length) :
    observe t (L.zip szs) ⟨some ((OBSERVATIONS, times) :: L.zip cols)⟩
      = some ⟨some ((OBSERVATIONS, times ++ [t]) ::
          L.zip (List.zipWith (fun (c : List ℚ) (sz : ℕ) => c ++ [(sz : ℚ)]) cols szs))⟩ := by
  have hfold := foldlM_storeAppend L szs cols [(OBSERVATIONS, times ++ [t])] hnd
    (by intro q hq; rw [List.mem_singleton.mp hq]; exact hobs) hsz hcols
  simp only [List.singleton_append] at hfold
  simp [observe, storeAppend, hfold]

theorem map_fst_nil_zip (L : List String) (szs : List ℕ) (hsz : szs.length = L.length) :
    (L.zip szs).map (fun p => (p.1, ([] : List ℚ)))
      = L.zip (List.replicate L.length ([] : List ℚ)) := by
  induction L generalizing szs with
  | nil => simp
  | cons l L ih =>
    cases szs with
    | nil => exact absurd hsz (by simp)
    | cons sz szs => simp [List.replicate_succ, ih szs (by simpa using hsz)]

theorem observe_first (t : Time) (L : List String) (szs : List ℕ)
    (hsz : szs.length = L.length) :
    observe t (L.zip szs) ⟨none⟩ =
      observe t (L.zip szs)
        ⟨some ((OBSERVATIONS, ([] : List ℚ)) :: L.zip (List.replicate L.length []))⟩ := by
  simp [observe, map_fst_nil_zip L szs hsz]

theorem observeRun_inv (steps : List (Time × List ℕ)) (L : List String)
    (times : List ℚ) (cols : List (List ℚ)) (hnd : L.Nodup) (hobs : OBSERVATIONS ∉ L)
    (hsteps : ∀ s ∈ steps, s.2.length = L.length) (hcols : cols.length = L.length) :
    observeRun (steps.map (fun s => (s.1, L.zip s.2)))
        ⟨some ((OBSERVATIONS, times) :: L.zip cols)⟩
      = some ⟨some ((OBSERVATIONS, times ++ steps.map Prod.fst) ::
          L.zip (steps.foldl colStep cols))⟩ := by
  induction steps generalizing times cols with
  | nil => simp [observeRun]
  | cons s steps ih =>
    obtain ⟨t, szs⟩ := s
    have hlen : szs.length = L.length := hsteps (t, szs) (List.mem_cons_self _ _)
    simp only [List.map_cons, observeRun,
      observe_step t L szs times cols hnd hobs hlen hcols, Option.some_bind]
    have hcols2 : (List.zipWith (fun (c : List ℚ) (sz : ℕ) => c ++ [(sz : ℚ)]) cols szs).length
        = L.length := by
      rw [List.length_zipWith, hcols, hlen, min_self]
    have := ih (times ++ [t]) (List.zipWith (fun (c : List ℚ) (sz : ℕ) => c ++ [(sz : ℚ)]) cols szs)
      (fun q hq => hsteps q (List.mem_cons_of_mem _ hq)) hcols2
    rw [this]
    simp [colStep, List.append_assoc]

end Monitor

end Epydemic

namespace Epydemic

namespace Monitor

theorem getD_replicate_nil (n j : ℕ) :
    (List.replicate n ([] : List ℚ)).getD j [] = [] := by
  induction n generalizing j with
  | zero => simp
  | succ n ih =>
    cases j with
    | zero => simp [List.replicate_succ]
    | succ j => simp [List.replicate_succ, ih j]

theorem zipWith_appendOne_getD (cols : List (List ℚ)) (r : List ℕ) (j : ℕ)
    (hj : j < cols.length) (hr : r.length = cols.length) :
    (List.zipWith (fun (c : List ℚ) (sz : ℕ) => c ++ [(sz : ℚ)]) cols r).getD j []
      = cols.getD j [] ++ [((r.getD j 0 : ℕ) : ℚ)] := by
  induction cols generalizing r j with
  | nil => simp at hj
  | cons c cols ih =>
    cases r with
    | nil => simp at hr
    | cons sz r =>
      cases j with
      | zero => simp
      | succ j =>
        simp only [List.zipWith_cons_cons, List.getD_cons_succ]
        exact ih r j (by simpa using hj) (by simpa using hr)

theorem foldl_colStep_length (steps : List (Time × List ℕ)) (cols : List (List ℚ))
    (n : ℕ) (hcols : cols.length = n) (hsteps : ∀ s ∈ steps, s.2.length = n) :
    (steps.foldl colStep cols).length = n := by
  induction steps generalizing cols with
  | nil => simpa using hcols
  | cons s steps ih =>
    simp only [List.foldl_cons]
    refine ih (colStep cols s) ?_ (fun q hq => hsteps q (List.mem_cons_of_mem _ hq))
    rw [colStep, List.length_zipWith, hcols, hsteps s (List.mem_cons_self _ _), min_self]

theorem foldl_colStep_getD (steps : List (Time × List ℕ)) (cols : List (List ℚ))
    (n j : ℕ) (hcols : cols.length = n) (hsteps : ∀ s ∈ steps, s.2.length = n)
    (hj : j < n) :
    (steps.foldl colStep cols).getD j []
      = cols.getD j [] ++ steps.map (fun s => ((s.2.getD j 0 : ℕ) : ℚ)) := by
  induction steps generalizing cols with
  | nil => simp
  | cons s steps ih =>
    simp only [List.foldl_cons, List.map_cons]
    have hclen : (colStep cols s).length = n := by
      rw [colStep, List.length_zipWith, hcols, hsteps s (List.mem_cons_self _ _), min_self]
    rw [ih (colStep cols s) hclen (fun q hq => hsteps q (List.mem_cons_of_mem _ hq))]
    rw [colStep, zipWith_appendOne_getD cols s.2 j (hcols ▸ hj)
      (by rw [hsteps s (List.mem_cons_self _ _), hcols])]
    simp

theorem foldl_colStep_mem_length (steps : List (Time × List ℕ)) (n : ℕ)
    (hsteps : ∀ s ∈ steps, s.2.length = n) :
    ∀ c ∈ steps.foldl colStep (List.replicate n ([] : List ℚ)),
      c.length = steps.length := by
  intro c hc
  obtain ⟨⟨j, hj⟩, hget⟩ := List.mem_iff_get.mp hc
  have hlen : (steps.foldl colStep (List.replicate n ([] : List ℚ))).length = n :=
    foldl_colStep_length steps _ n (by simp) hsteps
  have hjn : j < n := hlen ▸ hj
  have hgd : (steps.foldl colStep (List.replicate n ([] : List ℚ))).getD j [] = c := by
    rw [List.getD_eq_get?, List.get?_eq_get hj, hget]
    rfl
  rw [foldl_colStep_getD steps _ n j (by simp) hsteps hjn, getD_replicate_nil] at hgd
  rw [← hgd]
  simp

theorem storeGet_zip_get (L : List String) (cols : List (List ℚ)) (j : ℕ)
    (hj : j < L.length) (hnd : L.Nodup) (hcols : cols.length = L.length) :
    storeGet (L.zip cols) (L.get ⟨j, hj⟩) = some (cols.getD j []) := by
  induction L generalizing cols j with
  | nil => simp at hj
  | cons l L ih =>
    cases cols with
    | nil => simp at hcols
    | cons c cols =>
      cases j with
      | zero => simp [storeGet]
      | succ j =>
        have hjL : j < L.length := by simpa using hj
        have hmem : L.get ⟨j, hjL⟩ ∈ L := List.get_mem L j hjL
        have hne : l ≠ L.get ⟨j, hjL⟩ :=
          fun he => (List.nodup_cons.mp hnd).1 (he ▸ hmem)
        show storeGet ((l, c) :: L.zip cols) (L.get ⟨j, hjL⟩) = some (cols.getD j [])
        simp only [storeGet]
        rw [if_neg hne]
        exact ih cols j hjL (List.nodup_cons.mp hnd).2 (by simpa using hcols)

theorem storeGet_zip_not_mem (L : List String) (cols : List (List ℚ)) (k : String)
    (hk : k ∉ L) : storeGet (L.zip cols) k = none := by
  induction L generalizing cols with
  | nil => simp [storeGet]
  | cons l L ih =>
    cases cols with
    | nil => simp [storeGet, List.zip_nil_right]
    | cons c cols =>
      have h1 : l ≠ k := fun he => hk (he ▸ List.mem_cons_self l L)
      show storeGet ((l, c) :: L.zip cols) k = none
      simp only [storeGet]
      rw [if_neg h1]
      exact ih cols (fun hm => hk (List.mem_cons_of_mem _ hm))

end Monitor

end Epydemic

namespace Epydemic

namespace Monitor

/-- C3: starting from `reset`, over any non-empty sequence of `observe`
invocations during which the tracked-locus set L does not change, the store
exists afterwards and every sequence in it (the observation-times sequence
and one sequence per locus in L) has exactly length N; the i-th entry of the
observation-times sequence is the time of the i-th invocation and the i-th
entry of locus l's sequence is the size of l at the i-th invocation, so the
i-th entries of all sequences were recorded at the same observation.  Any
other key — in particular a locus created only after the first observation —
has no sequence in the store and is never retroactively backfilled. -/
theorem observe_lockstep (L : List String) (steps : List (Time × List ℕ))
    (hnd : L.Nodup) (hobs : OBSERVATIONS ∉ L)
    (hlen : ∀ s ∈ steps, s.2.length = L.length) (hne : steps ≠ []) :
    ∃ ts : Store,
      observeRun (steps.map (fun s => (s.1, L.zip s.2))) reset = some ⟨some ts⟩ ∧
      (∀ kv ∈ ts, kv.2.length = steps.length) ∧
      storeGet ts OBSERVATIONS = some (steps.map Prod.fst) ∧
      (∀ j (hj : j < L.length),
        storeGet ts (L.get ⟨j, hj⟩)
          = some (steps.map (fun s => ((s.2.getD j 0 : ℕ) : ℚ)))) ∧
      (∀ k, k ∉ OBSERVATIONS :: L → storeGet ts k = none) := by
  obtain ⟨t, szs, rest, rfl⟩ : ∃ t szs rest, steps = (t, szs) :: rest := by
    cases steps with
    | nil => exact absurd rfl hne
    | cons s rest => exact ⟨s.1, s.2, rest, rfl⟩
  have h0 : szs.length = L.length := hlen (t, szs) (List.mem_cons_self _ _)
  have hrest : ∀ s ∈ rest, s.2.length = L.length :=
    fun q hq => hlen q (List.mem_cons_of_mem _ hq)
  have hfc : ∀ s ∈ ((t, szs) :: rest), s.2.length = L.length := hlen
  refine ⟨(OBSERVATIONS, ((t, szs) :: rest).map Prod.fst) ::
      L.zip (((t, szs) :: rest).foldl colStep (List.replicate L.length [])),
    ?_, ?_, ?_, ?_, ?_⟩
  · simp only [List.map_cons, observeRun, reset]
    rw [observe_first t L szs h0,
      observe_step t L szs [] (List.replicate L.length []) hnd hobs h0 (by simp)]
    simp only [Option.some_bind, List.nil_append]
    rw [observeRun_inv rest L [t]
      (List.zipWith (fun (c : List ℚ) (sz : ℕ) => c ++ [(sz : ℚ)])
        (List.replicate L.length []) szs) hnd hobs hrest
      (by rw [List.length_zipWith, List.length_replicate, h0, min_self])]
    simp [colStep]
  · intro kv hkv
    rcases List.mem_cons.mp hkv with h | h
    · rw [h]
      simp
    · obtain ⟨a, b⟩ := kv
      have hb : b ∈ ((t, szs) :: rest).foldl colStep (List.replicate L.length []) :=
        (List.of_mem_zip h).2
      simpa using foldl_colStep_mem_length ((t, szs) :: rest) L.length hfc b hb
  · simp [storeGet]
  · intro j hj
    have hkey : OBSERVATIONS ≠ L.get ⟨j, hj⟩ :=
      fun he => hobs (he ▸ List.get_mem L j hj)
    simp only [storeGet]
    rw [if_neg hkey, storeGet_zip_get L _ j hj hnd
      (foldl_colStep_length _ _ _ (by simp) hfc),
      foldl_colStep_getD _ _ L.length j (by simp) hfc hj, getD_replicate_nil]
    simp
  · intro k hk
    have h1 : OBSERVATIONS ≠ k :=
      fun he => hk (he ▸ List.mem_cons_self OBSERVATIONS L)
    have h2 : k ∉ L := fun hm => hk (List.mem_cons_of_mem _ hm)
    simp only [storeGet]
    rw [if_neg h1]
    exact storeGet_zip_not_mem L _ k h2

/-- Witness for C3 with loci locusA and locusB over two observations: at time
0 the sizes are 1 and 2, at time 1 they are 0 and 3. -/
theorem observe_lockstep_witness :
    (["locusA", "locusB"] : List String).Nodup ∧
    OBSERVATIONS ∉ (["locusA", "locusB"] : List String) ∧
    (∀ s ∈ ([((0 : Time), [1, 2]), ((1 : Time), [0, 3])] : List (Time × List ℕ)),
      s.2.length = (["locusA", "locusB"] : List String).length) ∧
    ∃ ts : Store,
      observeRun
          (([((0 : Time), [1, 2]), ((1 : Time), [0, 3])] : List (Time × List ℕ)).map
            (fun s => (s.1, (["locusA", "locusB"] : List String).zip s.2))) reset
        = some ⟨some ts⟩ ∧
      (∀ kv ∈ ts, kv.2.length =
        ([((0 : Time), [1, 2]), ((1 : Time), [0, 3])] : List (Time × List ℕ)).length) ∧
      storeGet ts OBSERVATIONS =
        some (([((0 : Time), [1, 2]), ((1 : Time), [0, 3])] :
          List (Time × List ℕ)).map Prod.fst) ∧
      (∀ j (hj : j < (["locusA", "locusB"] : List String).length),
        storeGet ts ((["locusA", "locusB"] : List String).get ⟨j, hj⟩)
          = some (([((0 : Time), [1, 2]), ((1 : Time), [0, 3])] :
              List (Time × List ℕ)).map (fun s => ((s.2.getD j 0 : ℕ) : ℚ)))) ∧
      (∀ k, k ∉ OBSERVATIONS :: (["locusA", "locusB"] : List String) →
        storeGet ts k = none) :=
  ⟨by decide, by decide, by decide,
    observe_lockstep ["locusA", "locusB"] [((0 : Time), [1, 2]), ((1 : Time), [0, 3])]
      (by decide) (by decide) (by decide) (by decide)⟩

end Monitor

end Epydemic
